import Mathlib

/-!
Verification of the climbing-tracker app (src/app.py): a Streamlit page with a
max-hang interval timer and a 4x4 bouldering-set tracker, logging rows to local
CSV files and to a Google Sheet.

The embedding is a shallow one:
- Streamlit session state is an explicit record; one script run is a function
  from the pre-run state (plus the pressed button and the wall clock) to the
  post-run state.
- A CSV file is `Option (List (List String))`: `none` means the file does not
  exist yet (the code tests `os.path.exists` before deciding whether to write a
  header row); `some rows` is its list of rows.
- The remote sheet is `Except String (List (List String))`: `Except.error e`
  models a remote interaction that raises an exception `e` (bad credentials,
  network failure); `Except.ok rows` is the sheet content.
- The blocking countdown loops of the ready handler are modelled as a list of
  atomic steps (display ticks and sink appends); executing a prefix of that list
  models abandoning the session mid-run, since session-state mutations and file
  appends made before the abandonment persist.
- Python `int((elapsed + 1) / duration * 100)` truncates the float quotient.
  For the durations used here (5, 7 and 120) the float computation lands on the
  exact value whenever `(elapsed + 1) * 100 / duration` is an integer and is
  otherwise at least `1/duration` away from every integer, so the truncation
  equals exact natural-number division `(elapsed + 1) * 100 / duration`, which
  is how it is embedded.
-/

namespace ClimbingTracker

/-- Prep countdown length in seconds (`prep_time = 5` in the ready handler). -/
def prepTime : Nat := 5

/-- Hang countdown length in seconds (`hang_time = 7`). -/
def hangTime : Nat := 7

/-- Rest countdown length in seconds for the hang timer (`rest_time = 120`). -/
def restTime : Nat := 120

/-- Remaining-seconds display at loop index `e` of a countdown of length `d`:
`remaining = d - elapsed` in the three `for elapsed in range(...)` loops. -/
def remainingAt (d e : Nat) : Nat := d - e

/-- Progress-bar percentage at loop index `e` of a countdown of length `d`:
`int((elapsed + 1) / d * 100)`, embedded as exact truncated division
(see the header comment for why the float truncation agrees). -/
def progressAt (d e : Nat) : Nat := (e + 1) * 100 / d

/-- The sequence of remaining-seconds values displayed by the hang timer rest
loop (`for elapsed in range(rest_time)`). -/
def restRemainingSeq : List Nat := (List.range restTime).map (fun e => remainingAt restTime e)

/-- Header row of `hang_reps.csv`. -/
def repHeader : List String := ["timestamp", "rep_number", "reps_planned", "weight_kg"]

/-- Header row of `hang_sessions.csv`. -/
def sessHeader : List String := ["timestamp", "reps", "weight_kg"]

/-- Data row appended to `hang_reps.csv` after the hang phase:
`[datetime.now().isoformat(), current, reps, weight]`.  The timestamp and the
rendering of the weight are kept abstract as strings. -/
def repRow (ts : String) (current reps : Nat) (w : String) : List String :=
  [ts, toString current, toString reps, w]

/-- Data row appended to `hang_sessions.csv` when the session completes:
`[datetime.now().isoformat(), reps, weight]`. -/
def sessRow (ts : String) (reps : Nat) (w : String) : List String :=
  [ts, toString reps, w]

/-- The CSV append idiom used for both hang log files: open in append mode; if
the file did not exist (`os.path.exists` was false) write the header first,
then write the data row. -/
def appendCsv (header row : List String) : Option (List (List String)) → Option (List (List String))
  | none => some [header, row]
  | some rows => some (rows ++ [row])

/-- Session state of the Max Hang Timer page: `st.session_state.current_rep`
plus the two CSV files it appends to. -/
structure HangState where
  currentRep : Nat
  repCsv : Option (List (List String))
  sessCsv : Option (List (List String))
deriving Repr, DecidableEq

/-- Fresh session: `current_rep` initialised to 0, neither CSV file exists. -/
def initialHang : HangState := ⟨0, none, none⟩

/-- One atomic step of the blocking ready handler: a display tick of one of the
three countdowns, a CSV append, or the `current_rep` increment. -/
inductive HangStep where
  | displayPrep (remaining progress : Nat)
  | displayHang (remaining progress : Nat)
  | displayRest (remaining progress : Nat)
  | appendRepRow (row : List String)
  | incrementRep
  | appendSessionRow (row : List String)
deriving Repr, DecidableEq

/-- Recognises the `current_rep` increment step. -/
def stepIncs : HangStep → Bool
  | .incrementRep => true
  | _ => false

/-- Recognises a per-rep CSV append step. -/
def stepRepApp : HangStep → Bool
  | .appendRepRow _ => true
  | _ => false

/-- Recognises a session-summary CSV append step. -/
def stepSessApp : HangStep → Bool
  | .appendSessionRow _ => true
  | _ => false

/-- Recognises a rest countdown display tick. -/
def stepRestDisplay : HangStep → Bool
  | .displayRest _ _ => true
  | _ => false

/-- Recognises any display tick (a step with no effect on session state or files). -/
def isDisplayStep : HangStep → Bool
  | .displayPrep _ _ => true
  | .displayHang _ _ => true
  | .displayRest _ _ => true
  | _ => false

/-- The prep-phase display ticks (`for elapsed in range(prep_time)`). -/
def prepDisplays : List HangStep :=
  (List.range prepTime).map (fun e => .displayPrep (remainingAt prepTime e) (progressAt prepTime e))

/-- The hang-phase display ticks (`for elapsed in range(hang_time)`). -/
def hangDisplays : List HangStep :=
  (List.range hangTime).map (fun e => .displayHang (remainingAt hangTime e) (progressAt hangTime e))

/-- The rest-phase display ticks (`for elapsed in range(rest_time)`). -/
def restDisplays : List HangStep :=
  (List.range restTime).map (fun e => .displayRest (remainingAt restTime e) (progressAt restTime e))

/-- The full step list of the ready handler when entered with
`current_rep = c < reps`: prep countdown, hang countdown, per-rep CSV append,
rest countdown, `current_rep += 1`, and (if the session is now complete) the
session-summary CSV append. -/
def readyScript (reps : Nat) (w ts : String) (c : Nat) : List HangStep :=
  prepDisplays ++ (hangDisplays ++ ([.appendRepRow (repRow ts (c + 1) reps w)] ++
    (restDisplays ++ ([.incrementRep] ++
      (if reps ≤ c + 1 then [.appendSessionRow (sessRow ts reps w)] else [])))))

/-- The part of the ready handler up to and including the per-rep CSV append:
everything that has happened by the time the rep is logged, before the rest
countdown starts and before `current_rep` is incremented. -/
def preAppendScript (reps : Nat) (w ts : String) (c : Nat) : List HangStep :=
  prepDisplays ++ (hangDisplays ++ [.appendRepRow (repRow ts (c + 1) reps w)])

/-- The part of the ready handler strictly before the session-summary CSV
append on a completing rep: prep countdown, hang countdown, per-rep CSV append,
rest countdown and the `current_rep` increment.  All of it has executed — and
its session-state and file mutations persist — by the time the session append
runs. -/
def preSessScript (reps : Nat) (w ts : String) (c : Nat) : List HangStep :=
  prepDisplays ++ (hangDisplays ++ ([.appendRepRow (repRow ts (c + 1) reps w)] ++
    (restDisplays ++ [.incrementRep])))

/-- Effect of one handler step on the session state and files. -/
def applyStep (s : HangState) : HangStep → HangState
  | .appendRepRow r => { s with repCsv := appendCsv repHeader r s.repCsv }
  | .incrementRep => { s with currentRep := s.currentRep + 1 }
  | .appendSessionRow r => { s with sessCsv := appendCsv sessHeader r s.sessCsv }
  | .displayPrep _ _ => s
  | .displayHang _ _ => s
  | .displayRest _ _ => s

/-- The button pressed on a given run of the Max Hang Timer page (at most one
button returns true per Streamlit run). -/
inductive HangAction where
  | ready
  | reset
  | view
deriving Repr, DecidableEq

/-- One full run of the Max Hang Timer page, returning the new state and the
trace of handler steps executed during the run.  `reset` sets
`current_rep = 0`; `ready` runs the full blocking handler unless the session is
already complete (`current_rep >= reps` only shows the completion banner). -/
def runHangT (reps : Nat) (w ts : String) (a : HangAction) (s : HangState) :
    HangState × List HangStep :=
  match a with
  | .reset => ({ s with currentRep := 0 }, [])
  | .view => (s, [])
  | .ready =>
      if reps ≤ s.currentRep then (s, [])
      else ((readyScript reps w ts s.currentRep).foldl applyStep s, readyScript reps w ts s.currentRep)

/-- State part of `runHangT`. -/
def runHang (reps : Nat) (w ts : String) (a : HangAction) (s : HangState) : HangState :=
  (runHangT reps w ts a s).1

/-- `k` successive runs of the page, each pressing the ready button. -/
def iterReady (reps : Nat) (w ts : String) (k : Nat) : HangState → HangState :=
  (runHang reps w ts .ready)^[k]

/-- Number of data rows in a CSV file model: every file our appends create
starts with its header row, so this is the row count minus one. -/
def dataCount : Option (List (List String)) → Nat
  | none => 0
  | some rows => rows.length - 1

/-- `save_to_sheets`: authenticate, open the fixed sheet, read all values, write
the `["Date", "Activity", "Results"]` header if the sheet is empty, then append
the 3-column data row.  Any exception in this interaction is caught and shown
with `st.error`; the function itself never raises.  The first component of the
result is the new remote state, the second the displayed error notice. -/
def saveToSheets (remote : Except String (List (List String))) (row : List String) :
    Except String (List (List String)) × Option String :=
  match remote with
  | .error e => (.error e, some ("Failed to save to Google Sheets: " ++ e))
  | .ok rows =>
      (.ok ((if rows.isEmpty then [["Date", "Activity", "Results"]] else rows) ++ [row]), none)

/-- The fallible variant of one ready-handler step: the per-rep or session CSV
append raises when its flag is false (for example `open` raising
`PermissionError`); the raise carries the session state at that point, since a
Python exception aborts the script run but keeps all mutations made so far.
The CSV appends in `app.py` are not wrapped in any `try`. -/
def applyStepF (repOk sessOk : Bool) (s : HangState) : HangStep → Except HangState HangState
  | .appendRepRow r =>
      if repOk then .ok { s with repCsv := appendCsv repHeader r s.repCsv } else .error s
  | .appendSessionRow r =>
      if sessOk then .ok { s with sessCsv := appendCsv sessHeader r s.sessCsv } else .error s
  | step => .ok (applyStep s step)

/-- Run a step list until the first raised exception. -/
def foldF (repOk sessOk : Bool) : List HangStep → HangState → Except HangState HangState
  | [], s => .ok s
  | step :: l, s =>
      match applyStepF repOk sessOk s step with
      | .error s' => .error s'
      | .ok s' => foldF repOk sessOk l s'

/-- The ready handler with fallible CSV sinks: `Except.error s` means the run
was aborted by an uncaught exception with session state `s` at that moment. -/
def runReadyF (repOk sessOk : Bool) (reps : Nat) (w ts : String) (s : HangState) :
    Except HangState HangState :=
  if reps ≤ s.currentRep then .ok s
  else foldF repOk sessOk (readyScript reps w ts s.currentRep) s

/-- Reachable session states of the Max Hang Timer page: the fresh session,
plus anything obtainable by pressing Reset or by pressing the ready button
(with the slider at `reps ∈ [1, 10]`) and letting the handler execute any
initial segment of its steps — a proper initial segment models the user
abandoning the run partway (the session-state and file mutations already made
persist). -/
inductive Reach : HangState → Prop where
  | init : Reach initialHang
  | reset {s : HangState} : Reach s → Reach { s with currentRep := 0 }
  | readyInit {s : HangState} (reps : Nat) (w ts : String) (p q : List HangStep) :
      Reach s → 1 ≤ reps → reps ≤ 10 → s.currentRep < reps →
      p ++ q = readyScript reps w ts s.currentRep →
      Reach (p.foldl applyStep s)

/-- Session state and sinks of the 4x4 Tracker page.  `doneKeys i` is the
stored value of checkbox key `4x4_done_(i+1)` (`none` when the key is absent,
in which case the checkbox renders with its default, false); `gradeKeys i` the
stored grade selection (default first option, `"V0"`); `resetFlag` is
`reset_4x4_done`; `restStart` is `fourbyfour_rest_start`; `notice` the
Google-Sheets error banner of the last run, if any. -/
structure FourState where
  setsLogged : Nat
  restStart : Option Nat
  doneKeys : Fin 4 → Option Bool
  gradeKeys : Fin 4 → String
  resetFlag : Bool
  csv : Option (List (List String))
  remote : Except String (List (List String))
  notice : Option String

/-- Fresh 4x4 session state over an empty remote sheet. -/
def initFour : FourState :=
  { setsLogged := 0, restStart := none, doneKeys := fun _ => none,
    gradeKeys := fun _ => "V0", resetFlag := false, csv := none,
    remote := .ok [], notice := none }

/-- Prologue of every 4x4 page run: if `reset_4x4_done` is set, pop the four
checkbox keys (so they render as unchecked) and clear the flag. -/
def prologue (s : FourState) : FourState :=
  if s.resetFlag then { s with doneKeys := fun _ => none, resetFlag := false } else s

/-- The completed flag rendered for climb slot `i`: stored key value, or the
checkbox default false when the key is absent. -/
def completedFlag (s : FourState) (i : Fin 4) : Bool := (s.doneKeys i).getD false

/-- `completed_count = sum(1 for d in completed_flags if d)`. -/
def completedCount (s : FourState) : Nat :=
  (List.finRange 4).countP (fun i => completedFlag s i)

/-- Python `str` of a boolean, as `csv.writer` renders the completed flags. -/
def boolStr (b : Bool) : String := if b then "True" else "False"

/-- Header row of `four_by_four_sets.csv`. -/
def fourCsvHeader : List String :=
  ["timestamp", "climb1_grade", "climb1_completed", "climb2_grade", "climb2_completed",
   "climb3_grade", "climb3_completed", "climb4_grade", "climb4_completed", "completed_count"]

/-- Data row appended to `four_by_four_sets.csv` by the Log 4x4 Set handler:
timestamp, then grade and completed flag of each slot in order, then the
completed count. -/
def fourCsvRow (ts : String) (s : FourState) : List String :=
  [ts, s.gradeKeys 0, boolStr (completedFlag s 0),
       s.gradeKeys 1, boolStr (completedFlag s 1),
       s.gradeKeys 2, boolStr (completedFlag s 2),
       s.gradeKeys 3, boolStr (completedFlag s 3),
   toString (completedCount s)]

/-- The results cell sent to the sheet: `f"{completed_count}/4 sends"`. -/
def resultsStr (s : FourState) : String := toString (completedCount s) ++ "/4 sends"

/-- The Log 4x4 Set handler: run the page prologue, append the CSV row (header
first if the file did not exist), increment `fourbyfour_sets_logged`, send the
3-column summary row to the sheet via `save_to_sheets`, set
`fourbyfour_rest_start` to the current time, and set `reset_4x4_done` before
requesting a rerun. -/
def logSetRun (now : Nat) (ts date : String) (s : FourState) : FourState :=
  let s0 := prologue s
  { s0 with
      csv := appendCsv fourCsvHeader (fourCsvRow ts s0) s0.csv,
      setsLogged := s0.setsLogged + 1,
      remote := (saveToSheets s0.remote [date, "4x4", resultsStr s0]).1,
      notice := (saveToSheets s0.remote [date, "4x4", resultsStr s0]).2,
      restStart := some now,
      resetFlag := true }

/-- The Log 4x4 Set handler with a fallible CSV sink: the `with open(...)`
block is the first statement of the handler (right after the page prologue) and
is not wrapped in any `try`, so when it raises (`csvOk` false) the run aborts
with only the prologue applied — before the set counter increment, before the
sheet append, and before the rest window is started.  When the append succeeds
the handler runs exactly as `logSetRun`. -/
def logSetRunF (csvOk : Bool) (now : Nat) (ts date : String) (s : FourState) :
    Except FourState FourState :=
  let s0 := prologue s
  if csvOk then
    .ok { s0 with
        csv := appendCsv fourCsvHeader (fourCsvRow ts s0) s0.csv,
        setsLogged := s0.setsLogged + 1,
        remote := (saveToSheets s0.remote [date, "4x4", resultsStr s0]).1,
        notice := (saveToSheets s0.remote [date, "4x4", resultsStr s0]).2,
        restStart := some now,
        resetFlag := true }
  else .error s0

/-- Remaining rest seconds of the 4x4 rest timer at elapsed time `e`:
`max(0, 180 - elapsed)` (natural subtraction is the clamp). -/
def fourRestRemaining (e : Nat) : Nat := 180 - e

/-- What the 4x4 rest placeholder shows at elapsed time `e`: the remaining
seconds while they are positive, and nothing once the placeholder is emptied
(`remaining == 0`). -/
def fourRestDisplay (e : Nat) : Option Nat :=
  if 0 < fourRestRemaining e then some (fourRestRemaining e) else none

/-- The rest-timer section at the bottom of every 4x4 page run, evaluated at
wall-clock time `now`: while the rest is running it displays the remaining
seconds and requests a rerun; once `remaining` reaches 0 it empties the
placeholder and clears `fourbyfour_rest_start`. -/
def restView (now : Nat) (s : FourState) : FourState × Option Nat :=
  match s.restStart with
  | none => (s, none)
  | some t0 =>
      match fourRestDisplay (now - t0) with
      | some r => (s, some r)
      | none => ({ s with restStart := none }, none)

/-- A Log 4x4 Set press at time `now` together with the rerun it triggers
(`st.rerun()` re-executes the page immediately: prologue, widget rendering,
then the rest-timer section). -/
def logSetThenRerun (now : Nat) (ts date : String) (s : FourState) : FourState × Option Nat :=
  restView now (prologue (logSetRun now ts date s))

/-- `k` successive Log 4x4 Set presses (each followed by its rerun). -/
def iterLogSet : Nat → FourState → FourState
  | 0, s => s
  | k + 1, s => iterLogSet k (logSetThenRerun 0 "T" "D" s).1

section HangLemmas

/-- A mapped range contributes nothing to a count whose predicate rejects every
image. -/
lemma countP_map_range_zero (pr : HangStep → Bool) (f : Nat → HangStep) (n : Nat)
    (h : ∀ x, pr (f x) = false) : ((List.range n).map f).countP pr = 0 := by
  rw [List.countP_map]
  exact List.countP_eq_zero.mpr (fun a _ => by simp [Function.comp, h])

lemma prepDisplays_countP (pr : HangStep → Bool)
    (h : ∀ r q, pr (.displayPrep r q) = false) : prepDisplays.countP pr = 0 :=
  countP_map_range_zero pr _ _ (fun _ => h _ _)

lemma hangDisplays_countP (pr : HangStep → Bool)
    (h : ∀ r q, pr (.displayHang r q) = false) : hangDisplays.countP pr = 0 :=
  countP_map_range_zero pr _ _ (fun _ => h _ _)

lemma restDisplays_countP (pr : HangStep → Bool)
    (h : ∀ r q, pr (.displayRest r q) = false) : restDisplays.countP pr = 0 :=
  countP_map_range_zero pr _ _ (fun _ => h _ _)

/-- The ready handler increments `current_rep` exactly once. -/
lemma script_countP_incs (reps : Nat) (w ts : String) (c : Nat) :
    (readyScript reps w ts c).countP stepIncs = 1 := by
  simp only [readyScript, List.countP_append,
    prepDisplays_countP stepIncs (fun _ _ => rfl),
    hangDisplays_countP stepIncs (fun _ _ => rfl),
    restDisplays_countP stepIncs (fun _ _ => rfl)]
  split <;> simp [List.countP_cons, stepIncs]

/-- The ready handler appends exactly one per-rep row. -/
lemma script_countP_repApp (reps : Nat) (w ts : String) (c : Nat) :
    (readyScript reps w ts c).countP stepRepApp = 1 := by
  simp only [readyScript, List.countP_append,
    prepDisplays_countP stepRepApp (fun _ _ => rfl),
    hangDisplays_countP stepRepApp (fun _ _ => rfl),
    restDisplays_countP stepRepApp (fun _ _ => rfl)]
  split <;> simp [List.countP_cons, stepRepApp]

/-- The ready handler appends the session-summary row exactly when the rep it
just finished completes the session. -/
lemma script_countP_sessApp (reps : Nat) (w ts : String) (c : Nat) :
    (readyScript reps w ts c).countP stepSessApp = if reps ≤ c + 1 then 1 else 0 := by
  simp only [readyScript, List.countP_append,
    prepDisplays_countP stepSessApp (fun _ _ => rfl),
    hangDisplays_countP stepSessApp (fun _ _ => rfl),
    restDisplays_countP stepSessApp (fun _ _ => rfl)]
  split <;> simp [List.countP_cons, stepSessApp]

/-- Executing any step list adds to `current_rep` the number of increment
steps it contains. -/
lemma foldl_currentRep (l : List HangStep) :
    ∀ s : HangState, (l.foldl applyStep s).currentRep = s.currentRep + l.countP stepIncs := by
  induction l with
  | nil => intro s; simp
  | cons a l ih =>
      intro s
      cases a <;> (simp [applyStep, ih, List.countP_cons, stepIncs]; try omega)

/-- A CSV append always adds exactly one data row and keeps the file nonempty. -/
lemma dataCount_appendCsv (h r : List String) {f : Option (List (List String))}
    (hf : f ≠ some []) :
    appendCsv h r f ≠ some ([] : List (List String)) ∧
      dataCount (appendCsv h r f) = dataCount f + 1 := by
  cases f with
  | none => simp [appendCsv, dataCount]
  | some rows =>
      cases rows with
      | nil => exact absurd rfl hf
      | cons x t =>
          refine ⟨by simp [appendCsv], ?_⟩
          simp [appendCsv, dataCount]

/-- Executing any step list adds to the per-rep file one data row per per-rep
append step, provided the file was not an existing empty file. -/
lemma foldl_repCsv (l : List HangStep) :
    ∀ s : HangState, s.repCsv ≠ some [] →
      (l.foldl applyStep s).repCsv ≠ some [] ∧
        dataCount (l.foldl applyStep s).repCsv = dataCount s.repCsv + l.countP stepRepApp := by
  induction l with
  | nil => intro s hs; simpa using hs
  | cons a l ih =>
      intro s hs
      cases a with
      | appendRepRow r =>
          have hap := dataCount_appendCsv repHeader r hs
          have := ih { s with repCsv := appendCsv repHeader r s.repCsv } hap.1
          refine ⟨this.1, ?_⟩
          simp only [List.foldl_cons, applyStep] at this ⊢
          rw [this.2, List.countP_cons]
          simp [stepRepApp, hap.2]
          omega
      | incrementRep =>
          have := ih { s with currentRep := s.currentRep + 1 } hs
          simpa [applyStep, List.countP_cons, stepRepApp] using this
      | appendSessionRow r =>
          have := ih { s with sessCsv := appendCsv sessHeader r s.sessCsv } hs
          simpa [applyStep, List.countP_cons, stepRepApp] using this
      | displayPrep r q => simpa [applyStep, List.countP_cons, stepRepApp] using ih s hs
      | displayHang r q => simpa [applyStep, List.countP_cons, stepRepApp] using ih s hs
      | displayRest r q => simpa [applyStep, List.countP_cons, stepRepApp] using ih s hs

/-- Executing any step list adds to the session file one data row per session
append step, provided the file was not an existing empty file. -/
lemma foldl_sessCsv (l : List HangStep) :
    ∀ s : HangState, s.sessCsv ≠ some [] →
      (l.foldl applyStep s).sessCsv ≠ some [] ∧
        dataCount (l.foldl applyStep s).sessCsv = dataCount s.sessCsv + l.countP stepSessApp := by
  induction l with
  | nil => intro s hs; simpa using hs
  | cons a l ih =>
      intro s hs
      cases a with
      | appendSessionRow r =>
          have hap := dataCount_appendCsv sessHeader r hs
          have := ih { s with sessCsv := appendCsv sessHeader r s.sessCsv } hap.1
          refine ⟨this.1, ?_⟩
          simp only [List.foldl_cons, applyStep] at this ⊢
          rw [this.2, List.countP_cons]
          simp [stepSessApp, hap.2]
          omega
      | incrementRep =>
          have := ih { s with currentRep := s.currentRep + 1 } hs
          simpa [applyStep, List.countP_cons, stepSessApp] using this
      | appendRepRow r =>
          have := ih { s with repCsv := appendCsv repHeader r s.repCsv } hs
          simpa [applyStep, List.countP_cons, stepSessApp] using this
      | displayPrep r q => simpa [applyStep, List.countP_cons, stepSessApp] using ih s hs
      | displayHang r q => simpa [applyStep, List.countP_cons, stepSessApp] using ih s hs
      | displayRest r q => simpa [applyStep, List.countP_cons, stepSessApp] using ih s hs

end HangLemmas

/-- Net effect of one complete press of the ready button from an incomplete
session: `current_rep` goes up by one, one data row lands in the per-rep file,
and one data row lands in the session file exactly if this rep completes the
session. -/
lemma runReady_effect (reps : Nat) (w ts : String) (s : HangState)
    (h : s.currentRep < reps) (hr : s.repCsv ≠ some []) (hs : s.sessCsv ≠ some []) :
    (runHang reps w ts .ready s).currentRep = s.currentRep + 1 ∧
      (runHang reps w ts .ready s).repCsv ≠ some [] ∧
      dataCount (runHang reps w ts .ready s).repCsv = dataCount s.repCsv + 1 ∧
      (runHang reps w ts .ready s).sessCsv ≠ some [] ∧
      dataCount (runHang reps w ts .ready s).sessCsv =
        dataCount s.sessCsv + (if reps ≤ s.currentRep + 1 then 1 else 0) := by
  have hguard : ¬ reps ≤ s.currentRep := by omega
  have hrun : runHang reps w ts .ready s =
      (readyScript reps w ts s.currentRep).foldl applyStep s := by
    simp [runHang, runHangT, hguard]
  have h1 := foldl_currentRep (readyScript reps w ts s.currentRep) s
  have h2 := foldl_repCsv (readyScript reps w ts s.currentRep) s hr
  have h3 := foldl_sessCsv (readyScript reps w ts s.currentRep) s hs
  rw [hrun]
  refine ⟨?_, h2.1, ?_, h3.1, ?_⟩
  · rw [h1, script_countP_incs]
  · rw [h2.2, script_countP_repApp]
  · rw [h3.2, script_countP_sessApp]

/-- Shape of the session after `k ≤ reps` presses of the ready button from a
fresh session. -/
lemma iterReady_shape (reps : Nat) (w ts : String) (h1 : 1 ≤ reps) :
    ∀ k, k ≤ reps →
      (iterReady reps w ts k initialHang).currentRep = k ∧
      (iterReady reps w ts k initialHang).repCsv ≠ some [] ∧
      dataCount (iterReady reps w ts k initialHang).repCsv = k ∧
      (iterReady reps w ts k initialHang).sessCsv ≠ some [] ∧
      dataCount (iterReady reps w ts k initialHang).sessCsv = (if reps ≤ k then 1 else 0) := by
  intro k
  induction k with
  | zero =>
      intro _
      have h0 : ¬ reps ≤ 0 := by omega
      simp [iterReady, initialHang, dataCount, h0]
  | succ k ih =>
      intro hk
      have prev := ih (by omega)
      have hcr := prev.1
      have hlt : (iterReady reps w ts k initialHang).currentRep < reps := by omega
      have heff := runReady_effect reps w ts (iterReady reps w ts k initialHang) hlt
        prev.2.1 prev.2.2.2.1
      have hstep : iterReady reps w ts (k + 1) initialHang =
          runHang reps w ts .ready (iterReady reps w ts k initialHang) :=
        Function.iterate_succ_apply' (runHang reps w ts .ready) k initialHang
      rw [hstep]
      refine ⟨?_, heff.2.1, ?_, heff.2.2.2.1, ?_⟩
      · rw [heff.1, prev.1]
      · rw [heff.2.2.1, prev.2.2.1]
      · rw [heff.2.2.2.2, prev.2.2.2.2, prev.1]
        have hk2 : ¬ reps ≤ k := by omega
        simp [hk2]

/-- C1.  For every `repsPlanned ∈ [1, 10]`, pressing the ready button
(`startNextRep`) `repsPlanned` times from a fresh session drives the hang timer
to completion with exactly `repsPlanned` data rows appended to the per-rep sink
`hang_reps.csv` and exactly one data row appended to the session-summary sink
`hang_sessions.csv`; the session row appears only on the final press, the one
on which `current_rep` first reaches `repsPlanned`. -/
theorem c1_completion_rows (reps : Nat) (w ts : String) (h1 : 1 ≤ reps) (h10 : reps ≤ 10) :
    dataCount (iterReady reps w ts reps initialHang).repCsv = reps ∧
    dataCount (iterReady reps w ts reps initialHang).sessCsv = 1 ∧
    dataCount (iterReady reps w ts (reps - 1) initialHang).sessCsv = 0 ∧
    (iterReady reps w ts reps initialHang).currentRep = reps := by
  have hfin := iterReady_shape reps w ts h1 reps le_rfl
  have hpre := iterReady_shape reps w ts h1 (reps - 1) (by omega)
  refine ⟨hfin.2.2.1, ?_, ?_, hfin.1⟩
  · rw [hfin.2.2.2.2]; simp
  · rw [hpre.2.2.2.2]
    have : ¬ reps ≤ reps - 1 := by omega
    simp [this]

/-- Witness for C1 at `repsPlanned = 2`. -/
theorem c1_completion_rows_witness :
    dataCount (iterReady 2 "0.0" "T" 2 initialHang).repCsv = 2 ∧
    dataCount (iterReady 2 "0.0" "T" 2 initialHang).sessCsv = 1 ∧
    dataCount (iterReady 2 "0.0" "T" 1 initialHang).sessCsv = 0 ∧
    (iterReady 2 "0.0" "T" 2 initialHang).currentRep = 2 :=
  c1_completion_rows 2 "0.0" "T" (by decide) (by decide)

/-- Splitting an initial segment of a concatenation: it either sits inside the
first part or covers the first part and continues into the second. -/
lemma initSeg_cases {α : Type} {p q b : List α} :
    ∀ {a : List α}, p ++ q = a ++ b → (∃ t, p ++ t = a) ∨ (∃ r, p = a ++ r ∧ r ++ q = b) := by
  induction p with
  | nil =>
      intro a h
      cases a with
      | nil => exact Or.inr ⟨[], rfl, by simpa using h⟩
      | cons x a0 => exact Or.inl ⟨x :: a0, rfl⟩
  | cons y p0 ih =>
      intro a h
      cases a with
      | nil => exact Or.inr ⟨y :: p0, rfl, by simpa using h⟩
      | cons x a0 =>
          simp only [List.cons_append, List.cons.injEq] at h
          rcases ih h.2 with ⟨t, ht⟩ | ⟨r, hr, hrq⟩
          · exact Or.inl ⟨t, by simp [h.1, ht]⟩
          · exact Or.inr ⟨r, by simp [h.1, hr], hrq⟩

/-- An initial segment counts at most as much as the whole list. -/
lemma initSeg_countP_le {p t a : List HangStep} (pr : HangStep → Bool)
    (h : p ++ t = a) : p.countP pr ≤ a.countP pr := by
  rw [← h, List.countP_append]
  omega

/-- In every initial segment of the ready handler the `current_rep` increment
never precedes the per-rep CSV append: the rep is on disk before the counter
moves. -/
lemma initSeg_incs_le_repApp (reps : Nat) (w ts : String) (c : Nat) {p q : List HangStep}
    (h : p ++ q = readyScript reps w ts c) :
    p.countP stepIncs ≤ p.countP stepRepApp := by
  have hprep : prepDisplays.countP stepIncs = 0 := prepDisplays_countP stepIncs (fun _ _ => rfl)
  have hhang : hangDisplays.countP stepIncs = 0 := hangDisplays_countP stepIncs (fun _ _ => rfl)
  have hrest : restDisplays.countP stepIncs = 0 := restDisplays_countP stepIncs (fun _ _ => rfl)
  rw [readyScript] at h
  rcases initSeg_cases h with ⟨t, ht⟩ | ⟨r, hr, hrq⟩
  · have := initSeg_countP_le stepIncs ht
    omega
  · rcases initSeg_cases hrq with ⟨t, ht⟩ | ⟨r2, hr2, hrq2⟩
    · have := initSeg_countP_le stepIncs ht
      rw [hr]
      simp only [List.countP_append]
      omega
    · rcases initSeg_cases hrq2 with ⟨t, ht⟩ | ⟨r3, hr3, hrq3⟩
      · -- inside the singleton per-rep append step
        have := initSeg_countP_le stepIncs ht
        have hone : ([HangStep.appendRepRow (repRow ts (c + 1) reps w)]).countP stepIncs = 0 := by
          simp [List.countP_cons, stepIncs]
        rw [hr, hr2]
        simp only [List.countP_append]
        omega
      · rcases initSeg_cases hrq3 with ⟨t, ht⟩ | ⟨r4, hr4, hrq4⟩
        · -- inside the rest countdown: one rep append behind us, no increment yet
          have := initSeg_countP_le stepIncs ht
          rw [hr, hr2, hr3]
          simp only [List.countP_append, List.countP_cons, stepIncs, stepRepApp]
          simp [hprep, hhang]
          omega
        · -- at or past the increment: still only one increment in total
          have hlast : r4.countP stepIncs ≤
              ([HangStep.incrementRep] ++
                (if reps ≤ c + 1 then [HangStep.appendSessionRow (sessRow ts reps w)]
                 else [])).countP stepIncs := initSeg_countP_le stepIncs hrq4
          have htail : (if reps ≤ c + 1 then [HangStep.appendSessionRow (sessRow ts reps w)]
              else ([] : List HangStep)).countP stepIncs = 0 := by
            split <;> simp [List.countP_cons, stepIncs]
          rw [hr, hr2, hr3, hr4]
          simp only [List.countP_append, List.countP_cons, stepIncs, stepRepApp] at hlast ⊢
          simp [hprep, hhang, hrest] at hlast ⊢
          simp [htail] at hlast
          omega

/-- The reachability invariant behind C10, strengthened with the fact that the
per-rep file is never an existing empty file. -/
lemma reach_inv : ∀ s : HangState, Reach s →
    s.repCsv ≠ some [] ∧ s.currentRep ≤ dataCount s.repCsv := by
  intro s h
  induction h with
  | init => exact ⟨by simp [initialHang], by simp [initialHang, dataCount]⟩
  | reset _ ih => exact ⟨ih.1, by simp⟩
  | readyInit reps w ts p q hre h1 h10 hlt hpq ih =>
      rename_i s0
      have hfold := foldl_repCsv p s0 ih.1
      have hcnt := foldl_currentRep p s0
      have hle := initSeg_incs_le_repApp reps w ts s0.currentRep hpq
      refine ⟨hfold.1, ?_⟩
      rw [hcnt, hfold.2]
      have := ih.2
      omega

/-- C10.  In every reachable session state the per-rep sink holds at least
`current_rep` data rows (first conjunct).  The second conjunct pins down why:
within the ready handler, the per-rep row is appended immediately after the
hang countdown — before any rest tick and before the increment — so the state
reached by executing exactly the steps up to and including that append is
itself reachable (abandoning during the following 2-minute rest keeps it),
already has the extra logged row, and still has the old `current_rep`. -/
theorem c10_rep_rows_invariant :
    (∀ s : HangState, Reach s → s.currentRep ≤ dataCount s.repCsv) ∧
    (∀ (s : HangState) (reps : Nat) (w ts : String), Reach s →
      1 ≤ reps → reps ≤ 10 → s.currentRep < reps →
      Reach ((preAppendScript reps w ts s.currentRep).foldl applyStep s) ∧
      ((preAppendScript reps w ts s.currentRep).foldl applyStep s).currentRep = s.currentRep ∧
      dataCount ((preAppendScript reps w ts s.currentRep).foldl applyStep s).repCsv =
        dataCount s.repCsv + 1) := by
  constructor
  · exact fun s h => (reach_inv s h).2
  · intro s reps w ts hs h1 h10 hlt
    have hsplit : preAppendScript reps w ts s.currentRep ++
        (restDisplays ++ ([HangStep.incrementRep] ++
          (if reps ≤ s.currentRep + 1 then [HangStep.appendSessionRow (sessRow ts reps w)]
           else []))) = readyScript reps w ts s.currentRep := by
      simp [readyScript, preAppendScript, List.append_assoc]
    refine ⟨Reach.readyInit reps w ts _ _ hs h1 h10 hlt hsplit, ?_, ?_⟩
    · rw [foldl_currentRep]
      have hz : (preAppendScript reps w ts s.currentRep).countP stepIncs = 0 := by
        simp only [preAppendScript, List.countP_append,
          prepDisplays_countP stepIncs (fun _ _ => rfl),
          hangDisplays_countP stepIncs (fun _ _ => rfl)]
        simp [List.countP_cons, stepIncs]
      rw [hz]
      omega
    · have hfold := foldl_repCsv (preAppendScript reps w ts s.currentRep) s (reach_inv s hs).1
      rw [hfold.2]
      have ho : (preAppendScript reps w ts s.currentRep).countP stepRepApp = 1 := by
        simp only [preAppendScript, List.countP_append,
          prepDisplays_countP stepRepApp (fun _ _ => rfl),
          hangDisplays_countP stepRepApp (fun _ _ => rfl)]
        simp [List.countP_cons, stepRepApp]
      rw [ho]

/-- Witness for C10: the invariant at the fresh session, and the pre-append
segment of a first rep with the slider at 5. -/
theorem c10_rep_rows_invariant_witness :
    (initialHang.currentRep ≤ dataCount initialHang.repCsv) ∧
    (Reach ((preAppendScript 5 "0.0" "T" initialHang.currentRep).foldl applyStep initialHang) ∧
      ((preAppendScript 5 "0.0" "T" initialHang.currentRep).foldl applyStep
        initialHang).currentRep = initialHang.currentRep ∧
      dataCount ((preAppendScript 5 "0.0" "T" initialHang.currentRep).foldl applyStep
        initialHang).repCsv = dataCount initialHang.repCsv + 1) :=
  ⟨c10_rep_rows_invariant.1 initialHang Reach.init,
   c10_rep_rows_invariant.2 initialHang 5 "0.0" "T" Reach.init (by decide) (by decide) (by decide)⟩

/-- C7.  Pressing Reset in any session state unconditionally sets
`current_rep = 0`, touches neither log file, and runs no rest countdown — the
code keeps no persistent resting flag at all (rest only exists inside a
blocking ready run), so after a reset run the timer is idle, not resting:
the run's step trace contains no rest tick. -/
theorem c7_reset (s : HangState) (reps : Nat) (w ts : String) :
    (runHangT reps w ts .reset s).1.currentRep = 0 ∧
    (runHangT reps w ts .reset s).1.repCsv = s.repCsv ∧
    (runHangT reps w ts .reset s).1.sessCsv = s.sessCsv ∧
    (runHangT reps w ts .reset s).2.countP stepRestDisplay = 0 := by
  refine ⟨rfl, rfl, rfl, rfl⟩

/-- C6 counterexample.  A failing per-rep CSV append (for example `open`
raising `PermissionError`) is NOT caught at its call site: the run aborts with
the exception (`Except.error`), so the notice claim fails, and the state
transition does not complete — `current_rep` is still 0 and no rest phase runs,
contradicting the claim that every sink failure is caught and that no sink
failure terminates the operation. -/
theorem c6_counterexample :
    runReadyF false true 5 "0.0" "T" initialHang = Except.error initialHang := by
  rfl

/-- Every display tick leaves the fallible run in the same state. -/
lemma foldF_display_cons (repOk sessOk : Bool) (l : List HangStep) (s : HangState)
    (x : HangStep) (hx : isDisplayStep x = true) :
    foldF repOk sessOk (x :: l) s = foldF repOk sessOk l s := by
  cases x <;> simp_all [foldF, applyStepF, applyStep, isDisplayStep]

/-- A block of display ticks leaves the fallible run in the same state. -/
lemma foldF_displays (repOk sessOk : Bool) (A : List HangStep)
    (hA : ∀ x ∈ A, isDisplayStep x = true) :
    ∀ (l : List HangStep) (s : HangState),
      foldF repOk sessOk (A ++ l) s = foldF repOk sessOk l s := by
  induction A with
  | nil => intro l s; rfl
  | cons x A0 ih =>
      intro l s
      rw [List.cons_append, foldF_display_cons repOk sessOk (A0 ++ l) s x (hA x (by simp))]
      exact ih (fun y hy => hA y (by simp [hy])) l s

/-- Every element of a mapped display range is a display tick. -/
lemma mem_map_range_isDisplay (f : Nat → HangStep) (n : Nat)
    (hf : ∀ e, isDisplayStep (f e) = true) :
    ∀ x ∈ (List.range n).map f, isDisplayStep x = true := by
  intro x hx
  rcases List.mem_map.mp hx with ⟨e, _, rfl⟩
  exact hf e

/-- With healthy sinks the fallible handler agrees with the total one. -/
lemma foldF_ok (l : List HangStep) :
    ∀ s : HangState, foldF true true l s = Except.ok (l.foldl applyStep s) := by
  induction l with
  | nil => intro s; rfl
  | cons x l ih =>
      intro s
      cases x <;> simp [foldF, applyStepF, applyStep, ih]

/-- A step that is not a session append runs without raising when only the
session sink is broken. -/
lemma applyStepF_no_sess (x : HangStep) (hx : stepSessApp x = false) (s : HangState) :
    applyStepF true false s x = .ok (applyStep s x) := by
  cases x <;> simp_all [applyStepF, applyStep, stepSessApp]

/-- With only the session sink broken, a run whose steps end in a session
append executes everything before it and then aborts with the accumulated
state: every earlier session-state and file mutation persists. -/
lemma foldF_no_sess (r : List String) (A : List HangStep)
    (hA : ∀ x ∈ A, stepSessApp x = false) :
    ∀ s : HangState,
      foldF true false (A ++ [.appendSessionRow r]) s = .error (A.foldl applyStep s) := by
  induction A with
  | nil => intro s; rfl
  | cons x A0 ih =>
      intro s
      have hx := applyStepF_no_sess x (hA x (by simp)) s
      simp only [List.cons_append, foldF, hx, List.append_eq]
      rw [ih (fun y hy => hA y (by simp [hy])) (applyStep s x)]
      rfl

/-- No step before the session append is itself a session append. -/
lemma preSessScript_no_sess (reps : Nat) (w ts : String) (c : Nat) :
    ∀ x ∈ preSessScript reps w ts c, stepSessApp x = false := by
  intro x hx
  unfold preSessScript at hx
  rcases List.mem_append.mp hx with h | hx1
  · rcases List.mem_map.mp h with ⟨e, _, rfl⟩; rfl
  rcases List.mem_append.mp hx1 with h | hx2
  · rcases List.mem_map.mp h with ⟨e, _, rfl⟩; rfl
  rcases List.mem_append.mp hx2 with h | hx3
  · rw [List.mem_singleton.mp h]; rfl
  rcases List.mem_append.mp hx3 with h | h
  · rcases List.mem_map.mp h with ⟨e, _, rfl⟩; rfl
  · rw [List.mem_singleton.mp h]; rfl

/-- The steps before the session append increment `current_rep` exactly once. -/
lemma preSessScript_countP_incs (reps : Nat) (w ts : String) (c : Nat) :
    (preSessScript reps w ts c).countP stepIncs = 1 := by
  simp only [preSessScript, List.countP_append,
    prepDisplays_countP stepIncs (fun _ _ => rfl),
    hangDisplays_countP stepIncs (fun _ _ => rfl),
    restDisplays_countP stepIncs (fun _ _ => rfl)]
  simp [List.countP_cons, stepIncs]

/-- The steps before the session append log the per-rep row exactly once. -/
lemma preSessScript_countP_repApp (reps : Nat) (w ts : String) (c : Nat) :
    (preSessScript reps w ts c).countP stepRepApp = 1 := by
  simp only [preSessScript, List.countP_append,
    prepDisplays_countP stepRepApp (fun _ _ => rfl),
    hangDisplays_countP stepRepApp (fun _ _ => rfl),
    restDisplays_countP stepRepApp (fun _ _ => rfl)]
  simp [List.countP_cons, stepRepApp]

/-- On a completing rep, the ready handler's steps are exactly the pre-session
segment followed by the session-summary append. -/
lemma readyScript_completing (reps : Nat) (w ts : String) (c : Nat) (h : reps ≤ c + 1) :
    readyScript reps w ts c =
      preSessScript reps w ts c ++ [.appendSessionRow (sessRow ts reps w)] := by
  rw [readyScript, preSessScript, if_pos h]
  simp [List.append_assoc]

/-- C6, amended.  Only the remote-sheet append is guarded: `save_to_sheets`
catches every failure, surfaces it as an `st.error` notice, and returns
normally, so the state transition that called it completes unchanged (conjunct
1).  None of the three local CSV appends is guarded.  A failing per-rep append
(`hang_reps.csv`) aborts the ready run before the rest phase and before
`current_rep` is incremented, leaving the session state exactly as it was
(conjunct 2).  A failing session-summary append (`hang_sessions.csv`), which
can only happen on the completing rep, aborts the run after the per-rep row
was logged and after `current_rep` was incremented, with those mutations kept
(conjunct 3: the run ends in the fold of the pre-session segment, whose
`current_rep` is up by one and whose per-rep file gained one data row).  A
failing 4x4 set append (`four_by_four_sets.csv`), the first statement of the
Log 4x4 Set handler, aborts that run with only the page prologue applied:
before the set counter increment, before the sheet append, and before the rest
window starts (conjunct 4).  With healthy sinks both fallible handlers
coincide with the plain ones (conjuncts 5 and 6). -/
theorem c6_error_handling_amended :
    (∀ (e : String) (row : List String),
      saveToSheets (Except.error e) row =
        (Except.error e, some ("Failed to save to Google Sheets: " ++ e))) ∧
    (∀ (s : HangState) (reps : Nat) (w ts : String), s.currentRep < reps →
      runReadyF false true reps w ts s = Except.error s) ∧
    (∀ (s : HangState) (reps : Nat) (w ts : String),
      reps = s.currentRep + 1 → s.repCsv ≠ some [] →
      runReadyF true false reps w ts s =
        Except.error ((preSessScript reps w ts s.currentRep).foldl applyStep s) ∧
      ((preSessScript reps w ts s.currentRep).foldl applyStep s).currentRep =
        s.currentRep + 1 ∧
      dataCount ((preSessScript reps w ts s.currentRep).foldl applyStep s).repCsv =
        dataCount s.repCsv + 1) ∧
    (∀ (s : FourState) (now : Nat) (ts date : String),
      logSetRunF false now ts date s = Except.error (prologue s) ∧
      (prologue s).setsLogged = s.setsLogged ∧
      (prologue s).restStart = s.restStart ∧
      (prologue s).csv = s.csv ∧
      (prologue s).remote = s.remote) ∧
    (∀ (s : HangState) (reps : Nat) (w ts : String),
      runReadyF true true reps w ts s = Except.ok (runHang reps w ts .ready s)) ∧
    (∀ (s : FourState) (now : Nat) (ts date : String),
      logSetRunF true now ts date s = Except.ok (logSetRun now ts date s)) := by
  refine ⟨fun e row => rfl, ?_, ?_, ?_, ?_, fun s now ts date => rfl⟩
  · intro s reps w ts hlt
    have hguard : ¬ reps ≤ s.currentRep := by omega
    rw [runReadyF, if_neg hguard, readyScript]
    rw [foldF_displays false true prepDisplays
      (mem_map_range_isDisplay _ _ (fun _ => rfl)) _ s]
    rw [foldF_displays false true hangDisplays
      (mem_map_range_isDisplay _ _ (fun _ => rfl)) _ s]
    rfl
  · intro s reps w ts hcompleting hr
    have hguard : ¬ reps ≤ s.currentRep := by omega
    refine ⟨?_, ?_, ?_⟩
    · rw [runReadyF, if_neg hguard,
        readyScript_completing reps w ts s.currentRep (by omega)]
      exact foldF_no_sess (sessRow ts reps w) _
        (preSessScript_no_sess reps w ts s.currentRep) s
    · rw [foldl_currentRep, preSessScript_countP_incs]
    · rw [(foldl_repCsv (preSessScript reps w ts s.currentRep) s hr).2,
        preSessScript_countP_repApp]
  · intro s now ts date
    refine ⟨rfl, ?_, ?_, ?_, ?_⟩ <;> (unfold prologue; split <;> rfl)
  · intro s reps w ts
    rw [runReadyF, runHang, runHangT]
    by_cases hguard : reps ≤ s.currentRep
    · simp [hguard]
    · simp [hguard, foldF_ok]

/-- Witness for C6 (amended) at concrete inputs: a broken remote, a broken
per-rep CSV on a mid-session rep, a broken session CSV on the completing rep
of a one-rep session, a broken 4x4 CSV, and the two healthy-sink agreements. -/
theorem c6_error_handling_amended_witness :
    saveToSheets (Except.error "boom") ["D", "4x4", "0/4 sends"] =
      (Except.error "boom", some ("Failed to save to Google Sheets: " ++ "boom")) ∧
    runReadyF false true 3 "1.5" "T2" initialHang = Except.error initialHang ∧
    (runReadyF true false 1 "2.0" "T3" initialHang =
        Except.error ((preSessScript 1 "2.0" "T3" initialHang.currentRep).foldl
          applyStep initialHang) ∧
      ((preSessScript 1 "2.0" "T3" initialHang.currentRep).foldl
          applyStep initialHang).currentRep = initialHang.currentRep + 1 ∧
      dataCount ((preSessScript 1 "2.0" "T3" initialHang.currentRep).foldl
          applyStep initialHang).repCsv = dataCount initialHang.repCsv + 1) ∧
    logSetRunF false 7 "T4" "D4" initFour = Except.error (prologue initFour) ∧
    runReadyF true true 3 "1.5" "T2" initialHang =
      Except.ok (runHang 3 "1.5" "T2" .ready initialHang) ∧
    logSetRunF true 7 "T4" "D4" initFour = Except.ok (logSetRun 7 "T4" "D4" initFour) :=
  ⟨c6_error_handling_amended.1 "boom" ["D", "4x4", "0/4 sends"],
   c6_error_handling_amended.2.1 initialHang 3 "1.5" "T2" (by decide),
   c6_error_handling_amended.2.2.1 initialHang 1 "2.0" "T3" (by decide) (by decide),
   (c6_error_handling_amended.2.2.2.1 initFour 7 "T4" "D4").1,
   c6_error_handling_amended.2.2.2.2.1 initialHang 3 "1.5" "T2",
   c6_error_handling_amended.2.2.2.2.2 initFour 7 "T4" "D4"⟩

/-- C4 counterexample.  Neither rest countdown ever displays 0: the hang-timer
rest loop (`for elapsed in range(120)` displaying `120 - elapsed`) ends with 1
as its last displayed value, and the 4x4 rest placeholder shows 1 at elapsed
time 179 and is then simply emptied at 180 — so the claim that 0 is displayed
at the last tick before the indicator is cleared is false. -/
theorem c4_counterexample :
    restRemainingSeq.getLast? = some 1 ∧
    (0 ∈ restRemainingSeq → False) ∧
    fourRestDisplay 179 = some 1 ∧
    fourRestDisplay 180 = none := by
  refine ⟨by decide, by decide, by decide, by decide⟩

/-- C4, amended.  The displayed remaining-seconds values of both rest
countdowns are monotonically non-increasing over ticks, but they run from the
full duration down to exactly 1, never displaying 0: the hang rest loop's last
displayed value is 1, the 4x4 rest display never shows 0, and the 4x4 rest
indicator is cleared exactly from elapsed time 180 on. -/
theorem c4_rest_monotone_amended :
    (∀ i j : Nat, i ≤ j → j < restTime →
      remainingAt restTime j ≤ remainingAt restTime i ∧ 1 ≤ remainingAt restTime j) ∧
    restRemainingSeq.getLast? = some 1 ∧
    (∀ i j : Nat, i ≤ j → fourRestRemaining j ≤ fourRestRemaining i) ∧
    (∀ e : Nat, fourRestDisplay e ≠ some 0) ∧
    (∀ e : Nat, fourRestDisplay e = none ↔ 180 ≤ e) := by
  refine ⟨?_, by decide, ?_, ?_, ?_⟩
  · intro i j hij hj
    unfold remainingAt restTime at *
    omega
  · intro i j hij
    unfold fourRestRemaining
    omega
  · intro e
    unfold fourRestDisplay
    split
    · rename_i hpos
      intro hcontra
      rw [Option.some_inj] at hcontra
      omega
    · exact fun hcontra => Option.noConfusion hcontra
  · intro e
    unfold fourRestDisplay fourRestRemaining
    split <;> rename_i hcond
    · constructor
      · intro hcontra; exact absurd hcontra (by simp)
      · intro h180; omega
    · constructor
      · intro _; omega
      · intro _; rfl

/-- Witness for C4 (amended) at concrete ticks. -/
theorem c4_rest_monotone_amended_witness :
    (remainingAt restTime 5 ≤ remainingAt restTime 3 ∧ 1 ≤ remainingAt restTime 5) ∧
    fourRestRemaining 10 ≤ fourRestRemaining 2 ∧
    fourRestDisplay 60 ≠ some 0 ∧
    (fourRestDisplay 200 = none ↔ 180 ≤ 200) :=
  ⟨c4_rest_monotone_amended.1 3 5 (by decide) (by decide),
   c4_rest_monotone_amended.2.2.1 2 10 (by decide),
   c4_rest_monotone_amended.2.2.2.1 60,
   c4_rest_monotone_amended.2.2.2.2 200⟩

/-- The spec's claimed progress formula: `round(elapsedTicks / duration * 100)`
with round-to-nearest, stated over exact rationals for comparison with the
code's truncating `int(...)`. -/
def specProgress (d e : Nat) : ℤ := round ((((e : ℚ) + 1) * 100) / (d : ℚ))

/-- C5 counterexample.  At the second hang-phase tick (`elapsed = 1`,
duration 7) the code displays `int(2 / 7 * 100) = 28`, but round-to-nearest of
`2 / 7 * 100` is 29 — the progress percentage is truncated, not rounded to
nearest as the claim states. -/
theorem c5_counterexample : progressAt 7 1 = 28 ∧ specProgress 7 1 = 29 ∧ (28 : ℤ) ≠ 29 := by
  refine ⟨by decide, ?_, by decide⟩
  rw [specProgress, round_eq]
  have hq : (((1 : ℕ) : ℚ) + 1) * 100 / ((7 : ℕ) : ℚ) + 1 / 2 = 407 / 14 := by
    norm_num
  rw [hq]
  rw [Int.floor_eq_iff]
  constructor <;> norm_num

/-- C5, amended.  For every countdown phase of duration `d` (prep 5, hang 7,
rest 120): the displayed remaining seconds at loop index `e` equal
`d - elapsed` (the clamp to be nonnegative is the same value, stated over ℤ),
and the displayed progress percentage is the truncated
`(elapsed + 1) * 100 / d` — not the rounded value — which is monotonically
non-decreasing over ticks, never exceeds 100, and equals exactly 100 at the
final tick. -/
theorem c5_countdown_amended (d e e' : Nat) (hd : 0 < d) (hee : e ≤ e') (he' : e' < d) :
    ((remainingAt d e : ℤ) = max 0 ((d : ℤ) - (e : ℤ))) ∧
    progressAt d e ≤ progressAt d e' ∧
    progressAt d (d - 1) = 100 ∧
    progressAt d e' ≤ 100 := by
  refine ⟨?_, ?_, ?_, ?_⟩
  · unfold remainingAt
    omega
  · unfold progressAt
    exact Nat.div_le_div_right (Nat.mul_le_mul_right 100 (by omega))
  · unfold progressAt
    rw [Nat.sub_add_cancel (by omega : 1 ≤ d)]
    rw [Nat.mul_comm]
    exact Nat.mul_div_cancel 100 hd
  · unfold progressAt
    calc (e' + 1) * 100 / d ≤ d * 100 / d :=
          Nat.div_le_div_right (Nat.mul_le_mul_right 100 (by omega))
      _ = 100 := by rw [Nat.mul_comm]; exact Nat.mul_div_cancel 100 hd

/-- Witness for C5 (amended) on the hang phase at ticks 1 and 2. -/
theorem c5_countdown_amended_witness :
    ((remainingAt 7 1 : ℤ) = max 0 ((7 : ℤ) - (1 : ℤ))) ∧
    progressAt 7 1 ≤ progressAt 7 2 ∧
    progressAt 7 (7 - 1) = 100 ∧
    progressAt 7 2 ≤ 100 :=
  c5_countdown_amended 7 1 2 (by decide) (by decide) (by decide)

/-- C9.  Each sink writes its header at most once.  Local CSV: two appends to a
not-yet-existing file produce the header followed by the two data rows, and an
append to an existing file only appends the data row (the header test is
`os.path.exists`).  Remote sheet: two appends to an empty sheet produce the
header followed by the two data rows, and a sheet that already contains rows
never receives another header. -/
theorem c9_header_once :
    (∀ h r1 r2 : List String, appendCsv h r2 (appendCsv h r1 none) = some [h, r1, r2]) ∧
    (∀ (h r : List String) (rows : List (List String)),
      appendCsv h r (some rows) = some (rows ++ [r])) ∧
    (∀ r1 r2 : List String,
      (saveToSheets ((saveToSheets (Except.ok []) r1).1) r2).1 =
        Except.ok [["Date", "Activity", "Results"], r1, r2]) ∧
    (∀ (rows : List (List String)) (r : List String), rows ≠ [] →
      (saveToSheets (Except.ok rows) r).1 = Except.ok (rows ++ [r])) := by
  refine ⟨fun h r1 r2 => rfl, fun h r rows => rfl, fun r1 r2 => rfl, ?_⟩
  intro rows r hrows
  have : rows.isEmpty = false := by
    cases rows with
    | nil => exact absurd rfl hrows
    | cons x t => rfl
  simp [saveToSheets, this]

/-- Witness for C9 on a sheet that already holds one row. -/
theorem c9_header_once_witness :
    (saveToSheets (Except.ok [["x"]]) ["y"]).1 = Except.ok [["x"], ["y"]] :=
  c9_header_once.2.2.2 [["x"]] ["y"] (by decide)

section FourLemmas

/-- The prologue never touches the set counter. -/
lemma prologue_setsLogged (s : FourState) : (prologue s).setsLogged = s.setsLogged := by
  unfold prologue
  split <;> rfl

/-- The prologue never touches the grade selections. -/
lemma prologue_gradeKeys (s : FourState) : (prologue s).gradeKeys = s.gradeKeys := by
  unfold prologue
  split <;> rfl

/-- The prologue never touches the rest marker. -/
lemma prologue_restStart (s : FourState) : (prologue s).restStart = s.restStart := by
  unfold prologue
  split <;> rfl

/-- The prologue never touches the CSV file. -/
lemma prologue_csv (s : FourState) : (prologue s).csv = s.csv := by
  unfold prologue
  split <;> rfl

/-- The prologue never touches the remote sheet. -/
lemma prologue_remote (s : FourState) : (prologue s).remote = s.remote := by
  unfold prologue
  split <;> rfl

/-- After the prologue the reset flag is clear. -/
lemma prologue_resetFlag (s : FourState) : (prologue s).resetFlag = false := by
  unfold prologue
  split
  · rfl
  · rename_i h
    simpa using h

/-- The Log 4x4 Set handler increments the session set counter by exactly 1. -/
lemma logSetRun_setsLogged (now : Nat) (ts date : String) (s : FourState) :
    (logSetRun now ts date s).setsLogged = s.setsLogged + 1 := by
  simp only [logSetRun]
  rw [prologue_setsLogged]

/-- The Log 4x4 Set handler leaves the grade selections unchanged. -/
lemma logSetRun_gradeKeys (now : Nat) (ts date : String) (s : FourState) :
    (logSetRun now ts date s).gradeKeys = s.gradeKeys := by
  simp only [logSetRun]
  rw [prologue_gradeKeys]

/-- The Log 4x4 Set handler starts the 3-minute rest window at the press time. -/
lemma logSetRun_restStart (now : Nat) (ts date : String) (s : FourState) :
    (logSetRun now ts date s).restStart = some now := rfl

/-- The Log 4x4 Set handler requests the checkbox reset for the next run. -/
lemma logSetRun_resetFlag (now : Nat) (ts date : String) (s : FourState) :
    (logSetRun now ts date s).resetFlag = true := rfl

/-- The Log 4x4 Set handler appends exactly one row to the set CSV. -/
lemma logSetRun_csv (now : Nat) (ts date : String) (s : FourState) :
    (logSetRun now ts date s).csv =
      appendCsv fourCsvHeader (fourCsvRow ts (prologue s)) s.csv := by
  simp only [logSetRun]
  rw [prologue_csv]

/-- The Log 4x4 Set handler sends exactly one summary row to the sheet. -/
lemma logSetRun_remote (now : Nat) (ts date : String) (s : FourState) :
    (logSetRun now ts date s).remote =
      (saveToSheets s.remote [date, "4x4", resultsStr (prologue s)]).1 := by
  simp only [logSetRun]
  rw [prologue_remote]

/-- The rerun triggered by Log 4x4 Set: its prologue pops all four checkbox
keys, and its rest section (running immediately, at the press time) displays
the full 180 seconds without touching the rest marker. -/
lemma logSetThenRerun_eq (now : Nat) (ts date : String) (s : FourState) :
    logSetThenRerun now ts date s = ((prologue (logSetRun now ts date s)), some 180) := by
  unfold logSetThenRerun restView
  rw [prologue_restStart, logSetRun_restStart]
  simp [fourRestDisplay, fourRestRemaining]

end FourLemmas

/-- C3 counterexample.  Five presses of Log 4x4 Set from a fresh session leave
`fourbyfour_sets_logged = 5 > 4`: the increment at each press is unconditional
and the counter is never capped, so the claimed invariant
`fourByFourSetsLogged ≤ 4` fails on the reachable state after the fifth press. -/
theorem c3_counterexample :
    (iterLogSet 5 initFour).setsLogged = 5 ∧ ¬ (iterLogSet 5 initFour).setsLogged ≤ 4 := by
  have h5 : (iterLogSet 5 initFour).setsLogged = 5 := by decide
  exact ⟨h5, by omega⟩

/-- C3, amended.  The session set counter equals exactly the number of Log 4x4
Set presses — it is not capped at 4 — so `fourByFourSetsLogged ≤ 4` holds
precisely in the states reachable with at most 4 presses. -/
theorem c3_sets_logged_amended :
    (∀ (n : Nat) (s : FourState), (iterLogSet n s).setsLogged = s.setsLogged + n) ∧
    (∀ n : Nat, n ≤ 4 → (iterLogSet n initFour).setsLogged ≤ 4) := by
  have key : ∀ (n : Nat) (s : FourState), (iterLogSet n s).setsLogged = s.setsLogged + n := by
    intro n
    induction n with
    | zero => intro s; simp [iterLogSet]
    | succ k ih =>
        intro s
        rw [iterLogSet, ih, logSetThenRerun_eq, prologue_setsLogged, logSetRun_setsLogged]
        omega
  refine ⟨key, ?_⟩
  intro n hn
  rw [key n initFour]
  simpa [initFour] using hn

/-- Witness for C3 (amended) at exactly 4 presses. -/
theorem c3_sets_logged_amended_witness : (iterLogSet 4 initFour).setsLogged ≤ 4 :=
  c3_sets_logged_amended.2 4 (by decide)

/-- The concrete slot configuration of the claim: grades V3, V4, V5, V2 with
completed flags true, false, true, true, over a fresh CSV file and an empty
remote sheet. -/
def exampleFourState : FourState :=
  { setsLogged := 0, restStart := none,
    doneKeys := fun i => [some true, some false, some true, some true].getD i.val none,
    gradeKeys := fun i => ["V3", "V4", "V5", "V2"].getD i.val "V0",
    resetFlag := false, csv := none, remote := .ok [], notice := none }

/-- The row the spec claims `logSet` appends for the example slots:
`[timestamp, "4x4", grade1, result1, ..., grade4, result4, completedCount/4]`
with results rendered "Sent"/"Fail", at timestamp "T". -/
def specClaimedRow : List String :=
  ["T", "4x4", "V3", "Sent", "V4", "Fail", "V5", "Sent", "V2", "Sent", "3/4"]

/-- C2 counterexample.  For slots [(V3, true), (V4, false), (V5, true),
(V2, true)] the Log 4x4 Set handler appends neither row the claim describes:
the CSV row is `[timestamp, grade, "True"/"False" flag, ..., "3"]` — no "4x4"
tag, Python boolean strings instead of "Sent"/"Fail", and the integer count
instead of "3/4" — and the sheet row is the 3-column
`[date, "4x4", "3/4 sends"]`. -/
theorem c2_counterexample :
    (logSetRun 0 "T" "D" exampleFourState).csv =
      some [fourCsvHeader,
        ["T", "V3", "True", "V4", "False", "V5", "True", "V2", "True", "3"]] ∧
    (logSetRun 0 "T" "D" exampleFourState).remote =
      Except.ok [["Date", "Activity", "Results"], ["D", "4x4", "3/4 sends"]] ∧
    fourCsvRow "T" exampleFourState ≠ specClaimedRow ∧
    ["D", "4x4", resultsStr exampleFourState] ≠ specClaimedRow := by
  refine ⟨by decide, by rfl, by decide, by decide⟩

/-- C2, amended.  `logSet` appends exactly one row to `four_by_four_sets.csv`,
of the form `[timestamp, grade1, completed1, grade2, completed2, grade3,
completed3, grade4, completed4, completedCount]` where each `completedN` is the
Python boolean string "True"/"False" of the slot's flag and the last cell is
the integer completed count, and sends one 3-column row
`[date, "4x4", "{completedCount}/4 sends"]` to the sheet; for the slots
[(V3, true), (V4, false), (V5, true), (V2, true)] the completed count is 3, the
CSV row ends in "3" with flags rendered ["True", "False", "True", "True"] in
slot order, and the sheet results cell is "3/4 sends". -/
theorem c2_logset_row_amended :
    (∀ (s : FourState) (now : Nat) (ts date : String),
      (logSetRun now ts date s).csv =
        appendCsv fourCsvHeader (fourCsvRow ts (prologue s)) s.csv ∧
      (logSetRun now ts date s).remote =
        (saveToSheets s.remote
          [date, "4x4", toString (completedCount (prologue s)) ++ "/4 sends"]).1 ∧
      fourCsvRow ts (prologue s) =
        [ts, (prologue s).gradeKeys 0, boolStr (completedFlag (prologue s) 0),
             (prologue s).gradeKeys 1, boolStr (completedFlag (prologue s) 1),
             (prologue s).gradeKeys 2, boolStr (completedFlag (prologue s) 2),
             (prologue s).gradeKeys 3, boolStr (completedFlag (prologue s) 3),
         toString (completedCount (prologue s))]) ∧
    completedCount exampleFourState = 3 ∧
    fourCsvRow "T" exampleFourState =
      ["T", "V3", "True", "V4", "False", "V5", "True", "V2", "True", "3"] ∧
    resultsStr exampleFourState = "3/4 sends" := by
  refine ⟨?_, by decide, by decide, by decide⟩
  intro s now ts date
  exact ⟨logSetRun_csv now ts date s, logSetRun_remote now ts date s, rfl⟩

/-- C8.  After a Log 4x4 Set press at time `now` and the rerun it triggers,
all four climb slots render as not completed (their checkbox keys were
popped), the 180-second rest window is active — the rest marker holds the
press time and the rest display shows the full 180 seconds — and the selected
grades are unchanged. -/
theorem c8_logset_post (s : FourState) (now : Nat) (ts date : String) :
    (∀ i : Fin 4, completedFlag (logSetThenRerun now ts date s).1 i = false) ∧
    (logSetThenRerun now ts date s).1.restStart = some now ∧
    (logSetThenRerun now ts date s).2 = some 180 ∧
    (logSetThenRerun now ts date s).1.gradeKeys = s.gradeKeys ∧
    (logSetThenRerun now ts date s).1.resetFlag = false := by
  rw [logSetThenRerun_eq]
  refine ⟨?_, ?_, rfl, ?_, ?_⟩
  · intro i
    simp [prologue, logSetRun_resetFlag, completedFlag]
  · rw [prologue_restStart, logSetRun_restStart]
  · rw [prologue_gradeKeys, logSetRun_gradeKeys]
  · exact prologue_resetFlag _

end ClimbingTracker
